import Mathlib

/-!
Verification of the JSON-RPC client of `tune_jsonrpc.py` (class `JsonRpcClient`
and the helper `spawn_tune`).

The embedding is a state machine over an explicit client state.  Callbacks are
opaque tokens (`Nat`); every invocation of a callback or of an exported handler
is recorded in an event log, so "callback invoked once with (e, r)" becomes
"exactly one matching event is appended".  A callback that raises is modelled
by a behaviour function `beh : Nat → Bool` (`true` = the invocation raises);
the reader wraps each invocation in `afterTry`, the embedding of
`try: ... except Exception: pass`.

Stream input to the reader loop is modelled after the observable effect of
`line.strip()` / `json.loads(line)`: each physical line is either blank after
stripping, non-blank but not valid JSON (`json.loads` raises), or decodes to a
JSON value.  Writing a JSON parser is not needed for any claim.
-/

namespace TuneRpc

/-- JSON values as produced by `json.loads` / consumed by `json.dumps`.
Numbers are modelled as integers (all ids in the protocol are ints);
`null` stands for Python `None`. -/
inductive Json where
  | null : Json
  | bool : Bool → Json
  | num : Int → Json
  | str : String → Json
  | arr : List Json → Json
  | obj : List (String × Json) → Json

mutual

/-- Structural (Python `==` / dict-key) equality on JSON values. -/
def Json.beq : Json → Json → Bool
  | Json.null, Json.null => true
  | Json.bool a, Json.bool b => a == b
  | Json.num a, Json.num b => a == b
  | Json.str a, Json.str b => a == b
  | Json.arr a, Json.arr b => Json.beqList a b
  | Json.obj a, Json.obj b => Json.beqFields a b
  | _, _ => false

def Json.beqList : List Json → List Json → Bool
  | [], [] => true
  | x :: xs, y :: ys => Json.beq x y && Json.beqList xs ys
  | _, _ => false

def Json.beqFields : List (String × Json) → List (String × Json) → Bool
  | [], [] => true
  | (k, v) :: xs, (l, w) :: ys => k == l && Json.beq v w && Json.beqFields xs ys
  | _, _ => false

end

/-- `msg.get(k)` on a decoded object: `some` value when the key is present
(first occurrence; Python dicts have unique keys), `none` otherwise or when
the value is not a dict. -/
def Json.getField : Json → String → Option Json
  | Json.obj fields, k => fields.lookup k
  | _, _ => none

/-- `msg.get(k)` with Python `None` rendered as `Json.null`: an absent key and
an explicit `null` value are indistinguishable, exactly as in the source. -/
def Json.getD (m : Json) (k : String) : Json :=
  (m.getField k).getD Json.null

/-- `k in msg` for a dict. -/
def Json.hasKey (m : Json) (k : String) : Bool :=
  (m.getField k).isSome

/-- `isinstance(msg, dict)`. -/
def Json.isDict : Json → Bool
  | Json.obj _ => true
  | _ => false

/-- Python truthiness (`bool(v)`) of a decoded JSON value. -/
def Json.truthy : Json → Bool
  | Json.null => false
  | Json.bool b => b
  | Json.num n => n != 0
  | Json.str s => !s.isEmpty
  | Json.arr xs => !xs.isEmpty
  | Json.obj fs => !fs.isEmpty

/-- Rendering of a JSON value inside an f-string (`f"Method not found: {m}"`).
Exact for the string case, which is the only one the protocol exercises;
container cases are abbreviated. -/
def Json.display : Json → String
  | Json.null => "None"
  | Json.bool true => "True"
  | Json.bool false => "False"
  | Json.num n => toString n
  | Json.str s => s
  | Json.arr _ => "<list>"
  | Json.obj _ => "<dict>"

/-- The shape test of the response branch of `_read_stdout`:
`isinstance(msg, dict) and "id" in msg and ("result" in msg or "error" in msg
or "done" in msg)`. -/
def Json.isResponse (m : Json) : Bool :=
  m.isDict && m.hasKey "id" && (m.hasKey "result" || m.hasKey "error" || m.hasKey "done")

/-- Observable actions on callbacks and handlers, in the order they happen. -/
inductive Event where
  | invoke : Nat → Json → Json → Event
  | invokeStream : Nat → Json → Json → Bool → Event
  | handlerInvoked : Json → Json → Event

/-- The mutable state of a `JsonRpcClient`.  `running` abbreviates
`is_running` (process spawned and not yet exited / released); `written` is the
log of payloads passed to a successful `_write_json`; `events` is the log of
callback and handler invocations. -/
structure JsonRpcClient where
  nextId : Nat
  callbacks : List (Json × Nat)
  iters : List (Json × Nat)
  closing : Bool
  errbuf : List String
  running : Bool
  written : List Json
  events : List Event

/-- The state `__init__` builds: `_id = 1`, empty registries, `closing` off. -/
def JsonRpcClient.fresh : JsonRpcClient :=
  { nextId := 1, callbacks := [], iters := [], closing := false,
    errbuf := [], running := false, written := [], events := [] }

/-- Effect of a successful `start()`: the process is now running. -/
def JsonRpcClient.startOk (c : JsonRpcClient) : JsonRpcClient :=
  { c with running := true }

/-- A client just constructed and successfully started. -/
def startedClient : JsonRpcClient :=
  JsonRpcClient.fresh.startOk

/-- Registry lookup (`dict.get` / `dict.pop` hit test) keyed by the raw JSON
id value, as in the source where `msg.get("id")` keys the registries. -/
def alistLookup : List (Json × Nat) → Json → Option Nat
  | [], _ => none
  | (k, v) :: rest, key => if Json.beq k key then some v else alistLookup rest key

/-- Registry assignment `d[k] = v`: replace the value when the key exists,
append otherwise. -/
def alistInsert (m : List (Json × Nat)) (k : Json) (v : Nat) : List (Json × Nat) :=
  if m.any (fun p => Json.beq p.1 k) then
    m.map (fun p => if Json.beq p.1 k then (p.1, v) else p)
  else
    m ++ [(k, v)]

/-- Registry removal `d.pop(k, None)` (drop the entry with that key). -/
def alistRemove (m : List (Json × Nat)) (k : Json) : List (Json × Nat) :=
  m.filter (fun p => !(Json.beq p.1 k))

/-- The `except Exception: pass` around a callback invocation: whether or not
the callback raised (`raised`), control falls through to the same state. -/
def afterTry (raised : Bool) (c : JsonRpcClient) : JsonRpcClient :=
  if raised then c else c

/-- `_write_json`: drops the payload when the process is not running; write
errors (broken pipe) are swallowed may they occur, so a write while running
is logged unconditionally. -/
def JsonRpcClient.writeJson (c : JsonRpcClient) (payload : Json) : JsonRpcClient :=
  if c.running then { c with written := c.written ++ [payload] } else c

/-- The error dict `{"message": "process not running"}`. -/
def notRunningError : Json :=
  Json.obj [("message", Json.str "process not running")]

/-- `_call(method, params, stream, callback)`.  The callback is an opaque
token; `none` models calling without a callback. -/
def JsonRpcClient.call (c : JsonRpcClient) (method : String) (params : Json)
    (stream : Bool) (callback : Option Nat) : JsonRpcClient :=
  if c.running then
    let msgId := c.nextId
    let c1 := { c with nextId := c.nextId + 1 }
    let c2 :=
      match callback with
      | some cb =>
        if stream then { c1 with iters := alistInsert c1.iters (Json.num (Int.ofNat msgId)) cb }
        else { c1 with callbacks := alistInsert c1.callbacks (Json.num (Int.ofNat msgId)) cb }
      | none => c1
    c2.writeJson (Json.obj
      [("jsonrpc", Json.str "2.0"),
       ("id", Json.num (Int.ofNat msgId)),
       ("method", Json.str method),
       ("params", params),
       ("stream", Json.bool stream)])
  else
    match callback with
    | some cb => { c with events := c.events ++ [Event.invoke cb notRunningError Json.null] }
    | none => c

/-- `stop()`: sets `closing`, terminates the child and releases the handle
(`self.process = None`), after which `is_running` is false. -/
def JsonRpcClient.stop (c : JsonRpcClient) : JsonRpcClient :=
  { c with closing := true, running := false }

/-- An exported handler: pure result or a raised exception's text
(`except Exception as e: error = f"{e}"`). -/
abbrev Handler := Json → Except String Json

/-- The `exports` dict: method name to handler. -/
abbrev Exports := List (String × Handler)

/-- `self.exports.get(method)` where `method` is the raw JSON value of the
`method` field (a non-string key is never present in the string-keyed dict). -/
def exportLookup (exp : Exports) : Json → Option Handler
  | Json.str s => exp.lookup s
  | _ => none

/-- The reply `{"jsonrpc": "2.0", "id": req_id, "result": result}`. -/
def mkResultReply (rid : Json) (r : Json) : Json :=
  Json.obj [("jsonrpc", Json.str "2.0"), ("id", rid), ("result", r)]

/-- The reply `{"jsonrpc": "2.0", "id": req_id, "error": {"message": e}}`. -/
def mkErrorReply (rid : Json) (e : String) : Json :=
  Json.obj [("jsonrpc", Json.str "2.0"), ("id", rid), ("error", Json.obj [("message", Json.str e)])]

/-- The response branch of `_read_stdout`: pop the one-shot registry, fall
back to the streaming registry, invoke inside try/except, drop a streaming
entry on a truthy `done`. -/
def handleResponse (beh : Nat → Bool) (c : JsonRpcClient) (msg : Json) : JsonRpcClient :=
  let mid := msg.getD "id"
  let cb := alistLookup c.callbacks mid
  let it := alistLookup c.iters mid
  let c1 := { c with callbacks := alistRemove c.callbacks mid }
  match cb with
  | some f =>
    afterTry (beh f) { c1 with events := c1.events ++ [Event.invoke f (msg.getD "error") (msg.getD "result")] }
  | none =>
    match it with
    | some g =>
      let done := Json.truthy (msg.getD "done")
      let c2 := afterTry (beh g)
        { c1 with events := c1.events ++ [Event.invokeStream g (msg.getD "error") (msg.getD "result") done] }
      if done then { c2 with iters := alistRemove c2.iters mid } else c2
    | none => c1

/-- The inbound-call branch of `_read_stdout`: look up the handler, invoke it
(recording the invocation), and when `msg.get("id")` is not `None` write back
a result or error reply. -/
def handleInbound (exp : Exports) (c : JsonRpcClient) (msg : Json) : JsonRpcClient :=
  let method := msg.getD "method"
  let reqId := msg.getD "id"
  let params := msg.getD "params"
  let step : JsonRpcClient × Except String Json :=
    match exportLookup exp method with
    | none =>
      (c, Except.error ("Method not found: " ++ method.display))
    | some f =>
      ({ c with events := c.events ++ [Event.handlerInvoked method params] }, f params)
  let c1 := step.1
  if Json.beq reqId Json.null then c1
  else
    match step.2 with
    | Except.error e => c1.writeJson (mkErrorReply reqId e)
    | Except.ok r => c1.writeJson (mkResultReply reqId r)

/-- Dispatch of one decoded message: response branch first, then the inbound
branch guarded by `isinstance(msg, dict) and msg.get("method")` (truthiness),
anything else is dropped. -/
def handleParsed (exp : Exports) (beh : Nat → Bool) (c : JsonRpcClient) (msg : Json) : JsonRpcClient :=
  if Json.isResponse msg then handleResponse beh c msg
  else if msg.isDict && Json.truthy (msg.getD "method") then handleInbound exp c msg
  else c

/-- One physical line of the child's stdout, by the observable outcome of
`line.strip()` and `json.loads`: blank after stripping, invalid JSON, or a
decoded value. -/
inductive InLine where
  | blank : InLine
  | malformed : InLine
  | parsed : Json → InLine

/-- One iteration of the reader loop: blank and undecodable lines are skipped
(`continue`), decoded messages are dispatched. -/
def processLine (exp : Exports) (beh : Nat → Bool) (c : JsonRpcClient) : InLine → JsonRpcClient
  | InLine.blank => c
  | InLine.malformed => c
  | InLine.parsed msg => handleParsed exp beh c msg

/-- `err_text or "process exited"` where `err_text = "\n".join(self._errbuf)`. -/
def exitMessage (errbuf : List String) : String :=
  let t := String.intercalate "\n" errbuf
  if t.isEmpty then "process exited" else t

/-- The error dict handed to every pending callback on unexpected exit. -/
def exitError (c : JsonRpcClient) : Json :=
  Json.obj [("message", Json.str (exitMessage c.errbuf))]

/-- The end-of-stream epilogue of `_read_stdout`: unless `closing`, reject
every pending one-shot callback, clear that registry, reject every pending
streaming callback with `{"value": "", "done": True}`, clear that registry. -/
def onEof (beh : Nat → Bool) (c : JsonRpcClient) : JsonRpcClient :=
  if c.closing then c
  else
    let err := exitError c
    let c1 := c.callbacks.foldl
      (fun acc p => afterTry (beh p.2) { acc with events := acc.events ++ [Event.invoke p.2 err Json.null] }) c
    let c2 := { c1 with callbacks := [] }
    let c3 := c2.iters.foldl
      (fun acc p => afterTry (beh p.2) { acc with events := acc.events ++ [Event.invokeStream p.2 err (Json.str "") true] }) c2
    { c3 with iters := [] }

/-- The whole `_read_stdout` run: the loop over the lines the child emitted,
then the end-of-stream epilogue. -/
def readStdout (exp : Exports) (beh : Nat → Bool) (c : JsonRpcClient) (lines : List InLine) : JsonRpcClient :=
  onEof beh (lines.foldl (processLine exp beh) c)

/-- The advertisement `spawn_tune` performs right after a successful start:
`client.init(["resolve", "read"], False, lambda _e, _r: None)` — an outbound
call named `init` with the hard-coded params list and a no-op callback
(token `0`). -/
def spawnAdvertise (c : JsonRpcClient) : JsonRpcClient :=
  c.call "init" (Json.arr [Json.str "resolve", Json.str "read"]) false (some 0)

/-- Interleaved activity on one connection: a caller issuing an outbound call
(`_call`) or the reader loop processing one line of child output. -/
inductive Action where
  | call : String → Json → Bool → Option Nat → Action
  | line : InLine → Action

/-- Number of outbound-call actions in a trace. -/
def countCalls : List Action → Nat
  | [] => 0
  | Action.call _ _ _ _ :: tr => countCalls tr + 1
  | Action.line _ :: tr => countCalls tr

/-- The correlation ids `_call` assigns along a trace (an id is consumed
exactly when the connection is running at the moment of the call). -/
def assignedIds (exp : Exports) (beh : Nat → Bool) : JsonRpcClient → List Action → List Nat
  | _, [] => []
  | c, Action.call m p s cb :: tr =>
      if c.running then c.nextId :: assignedIds exp beh (c.call m p s cb) tr
      else assignedIds exp beh (c.call m p s cb) tr
  | c, Action.line l :: tr => assignedIds exp beh (processLine exp beh c l) tr

/-! ## Basic lemmas -/

lemma afterTry_eq (b : Bool) (c : JsonRpcClient) : afterTry b c = c := by
  cases b <;> rfl

lemma alistLookup_remove_self (m : List (Json × Nat)) (k : Json) :
    alistLookup (alistRemove m k) k = none := by
  induction m with
  | nil => rfl
  | cons x xs ih =>
    obtain ⟨a, b⟩ := x
    by_cases h : Json.beq a k = true
    · simpa [alistRemove, List.filter_cons, h] using ih
    · simp only [Bool.not_eq_true] at h
      simp only [alistRemove, List.filter_cons] at ih ⊢
      simp [alistLookup, h]
      exact ih

lemma alistRemove_of_lookup_none (m : List (Json × Nat)) (k : Json)
    (h : alistLookup m k = none) : alistRemove m k = m := by
  induction m with
  | nil => rfl
  | cons x xs ih =>
    obtain ⟨a, b⟩ := x
    by_cases hx : Json.beq a k = true
    · simp [alistLookup, hx] at h
    · simp only [Bool.not_eq_true] at hx
      simp only [alistLookup, hx, Bool.false_eq_true, if_false] at h
      simp only [alistRemove, List.filter_cons, hx, Bool.not_false, if_true]
      rw [show List.filter (fun p => !(Json.beq p.1 k)) xs = alistRemove xs k from rfl, ih h]

lemma foldl_events (beh : Nat → Bool) (f : Json × Nat → Event) (l : List (Json × Nat)) :
    ∀ c : JsonRpcClient,
      l.foldl (fun acc p => afterTry (beh p.2) { acc with events := acc.events ++ [f p] }) c
        = { c with events := c.events ++ l.map f } := by
  induction l with
  | nil =>
    intro c
    show c = { c with events := c.events ++ ([] : List Event) }
    rw [List.append_nil]
  | cons x xs ih =>
    intro c
    rw [List.foldl_cons, afterTry_eq, ih, List.map_cons, List.append_assoc]
    rfl

lemma onEof_not_closing (beh : Nat → Bool) (c : JsonRpcClient) (h : c.closing = false) :
    onEof beh c =
      { c with
        events := c.events
          ++ c.callbacks.map (fun p => Event.invoke p.2 (exitError c) Json.null)
          ++ c.iters.map (fun p => Event.invokeStream p.2 (exitError c) (Json.str "") true),
        callbacks := [], iters := [] } := by
  unfold onEof
  rw [h]
  simp only [Bool.false_eq_true, if_false, foldl_events]
  simp [List.append_assoc, h]

lemma onEof_closing (beh : Nat → Bool) (c : JsonRpcClient) (h : c.closing = true) :
    onEof beh c = c := by
  unfold onEof
  rw [h]
  simp

lemma processLine_fields (exp : Exports) (beh : Nat → Bool) (c : JsonRpcClient) (l : InLine) :
    (processLine exp beh c l).running = c.running
  ∧ (processLine exp beh c l).nextId = c.nextId := by
  cases l with
  | blank => exact ⟨rfl, rfl⟩
  | malformed => exact ⟨rfl, rfl⟩
  | parsed msg =>
    show (handleParsed exp beh c msg).running = c.running
       ∧ (handleParsed exp beh c msg).nextId = c.nextId
    unfold handleParsed handleResponse handleInbound JsonRpcClient.writeJson
    simp only [afterTry_eq]
    repeat' split
    all_goals simp

lemma call_fields (c : JsonRpcClient) (m : String) (p : Json) (s : Bool) (cb : Option Nat)
    (h : c.running = true) :
    (JsonRpcClient.call c m p s cb).running = true
  ∧ (JsonRpcClient.call c m p s cb).nextId = c.nextId + 1 := by
  unfold JsonRpcClient.call JsonRpcClient.writeJson
  rw [h]
  cases cb with
  | none => simp [h]
  | some t => cases s <;> simp [h]

lemma handleResponse_beh (beh beh2 : Nat → Bool) (c : JsonRpcClient) (msg : Json) :
    handleResponse beh c msg = handleResponse beh2 c msg := by
  simp only [handleResponse]
  cases hcb : alistLookup c.callbacks (msg.getD "id") with
  | some f => simp [afterTry_eq]
  | none =>
    cases hit : alistLookup c.iters (msg.getD "id") with
    | some g => simp [afterTry_eq]
    | none => simp

lemma processLine_beh (exp : Exports) (beh beh2 : Nat → Bool) (c : JsonRpcClient) (l : InLine) :
    processLine exp beh c l = processLine exp beh2 c l := by
  cases l with
  | blank => rfl
  | malformed => rfl
  | parsed msg =>
    show handleParsed exp beh c msg = handleParsed exp beh2 c msg
    unfold handleParsed
    by_cases hr : Json.isResponse msg = true
    · simp only [hr, if_true]
      exact handleResponse_beh beh beh2 c msg
    · simp only [Bool.not_eq_true] at hr
      simp only [hr, Bool.false_eq_true, if_false]

lemma foldl_processLine_beh (exp : Exports) (beh beh2 : Nat → Bool) :
    ∀ (lines : List InLine) (c : JsonRpcClient),
      lines.foldl (processLine exp beh) c = lines.foldl (processLine exp beh2) c := by
  intro lines
  induction lines with
  | nil => intro c; rfl
  | cons l ls ih =>
    intro c
    rw [List.foldl_cons, List.foldl_cons, processLine_beh exp beh beh2 c l, ih]

lemma onEof_beh (beh beh2 : Nat → Bool) (c : JsonRpcClient) :
    onEof beh c = onEof beh2 c := by
  by_cases h : c.closing = true
  · rw [onEof_closing beh c h, onEof_closing beh2 c h]
  · simp only [Bool.not_eq_true] at h
    rw [onEof_not_closing beh c h, onEof_not_closing beh2 c h]

/-! ## Claims -/

/-- C1: when the reader loop observes end-of-stream while `closing` is false,
every still-registered one-shot callback is invoked exactly once with the
error whose message is the joined diagnostics buffer (or "process exited"
when that text is empty) and a null result, every still-registered streaming
callback is invoked exactly once with the same error and the payload
`{"value": "", "done": True}`, and both registries are empty afterwards;
when `closing` is true at end-of-stream, the state is untouched. -/
theorem c1_exit_cascade (beh : Nat → Bool) (c : JsonRpcClient) :
    (c.closing = false →
      onEof beh c =
        { c with
          events := c.events
            ++ c.callbacks.map (fun p => Event.invoke p.2 (exitError c) Json.null)
            ++ c.iters.map (fun p => Event.invokeStream p.2 (exitError c) (Json.str "") true),
          callbacks := [], iters := [] })
  ∧ (c.closing = true → onEof beh c = c) :=
  ⟨onEof_not_closing beh c, onEof_closing beh c⟩

/-- C1 witness: a concrete non-closing client with one pending one-shot and
one pending streaming callback, and a concrete closing client. -/
theorem c1_exit_cascade_witness :
    (let c : JsonRpcClient :=
      { nextId := 3, callbacks := [(Json.num 1, 10)], iters := [(Json.num 2, 20)],
        closing := false, errbuf := [], running := true, written := [], events := [] }
     onEof (fun _ => false) c =
      { c with
        events := [Event.invoke 10 (exitError c) Json.null,
                   Event.invokeStream 20 (exitError c) (Json.str "") true],
        callbacks := [], iters := [] })
  ∧ onEof (fun _ => false) (JsonRpcClient.stop startedClient)
      = JsonRpcClient.stop startedClient := by
  exact ⟨(c1_exit_cascade (fun _ => false) _).1 rfl,
         (c1_exit_cascade (fun _ => false) _).2 rfl⟩

/-- C2 counterexample: a connection with one pending one-shot call that is
terminated via `stop()` (and whose reader then observes end-of-stream) still
holds the registry entry afterwards: the claimed en-masse removal does not
happen on the `stop()` path, because `stop()` sets `closing` and the
end-of-stream epilogue is skipped. -/
theorem c2_stop_keeps_entry :
    alistLookup
      (onEof (fun _ => false)
        (JsonRpcClient.stop (startedClient.call "doit" Json.null false (some 7)))).callbacks
      (Json.num 1) = some 7
  ∧ (JsonRpcClient.stop (startedClient.call "doit" Json.null false (some 7))).closing = true
  ∧ (JsonRpcClient.stop (startedClient.call "doit" Json.null false (some 7))).running = false := by
  exact ⟨rfl, rfl, rfl⟩

/-- C2 amended: pending registry entries are removed en masse only when the
reader observes end-of-stream while `closing` is false (unexpected child
exit); when the connection is terminated via `stop()`, `closing` is set, the
epilogue is suppressed, and any remaining entries stay in the registries
(they are never invoked again by the reader, but they are not removed). -/
theorem c2_amended_cleanup (beh : Nat → Bool) (c : JsonRpcClient) :
    (c.closing = false → (onEof beh c).callbacks = [] ∧ (onEof beh c).iters = [])
  ∧ ((onEof beh (JsonRpcClient.stop c)).callbacks = c.callbacks
      ∧ (onEof beh (JsonRpcClient.stop c)).iters = c.iters
      ∧ (JsonRpcClient.stop c).closing = true) := by
  constructor
  · intro h
    rw [onEof_not_closing beh c h]
    exact ⟨rfl, rfl⟩
  · rw [onEof_closing beh (JsonRpcClient.stop c) rfl]
    exact ⟨rfl, rfl, rfl⟩

/-- C2 amended witness: concrete client with a pending entry, both paths. -/
theorem c2_amended_cleanup_witness :
    (let c : JsonRpcClient := startedClient.call "doit" Json.null false (some 7)
     c.closing = false
       ∧ ((onEof (fun _ => false) c).callbacks = [] ∧ (onEof (fun _ => false) c).iters = [])
       ∧ (onEof (fun _ => false) (JsonRpcClient.stop c)).callbacks = c.callbacks) := by
  refine ⟨rfl, (c2_amended_cleanup (fun _ => false) _).1 rfl, ?_⟩
  exact (c2_amended_cleanup (fun _ => false) _).2.1

/-- C4: a call issued while the connection is not running invokes the
supplied callback synchronously with the "process not running" error and a
null result, and changes nothing else: the id counter, both registries and
the write log are untouched; a call without a callback does nothing at all. -/
theorem c4_not_running (c : JsonRpcClient) (m : String) (p : Json) (s : Bool) (cb : Nat)
    (h : c.running = false) :
    c.call m p s (some cb)
        = { c with events := c.events ++ [Event.invoke cb notRunningError Json.null] }
  ∧ c.call m p s none = c := by
  unfold JsonRpcClient.call
  rw [h]
  simp

/-- C3 counterexample: the post-spawn `init` advertisement is not a
notification and is not registry-free: `spawn_tune` passes a no-op callback
(`lambda _e, _r: None`), so `_call` registers a one-shot entry under the
assigned id 1.  This refutes "no registry entry created, fire-and-forget". -/
theorem c3_init_creates_entry :
    alistLookup (spawnAdvertise startedClient).callbacks (Json.num 1) = some 0
  ∧ (spawnAdvertise startedClient).iters = [] := by
  exact ⟨rfl, rfl⟩

/-- C3 amended: immediately after a successful spawn, the connection issues an
outbound call named `init` whose params are the hard-coded list
`["resolve", "read"]` (the method names the surrounding plugin always
exports, not computed from the exports dict), carrying a no-op callback, so a
one-shot registry entry is created under id 1; the call is wrapped in
`try/except`, so a failure of it does not make the connection unusable — the
connection stays running. -/
theorem c3_amended_advertise :
    spawnAdvertise startedClient =
      { startedClient with
        nextId := 2,
        callbacks := [(Json.num 1, 0)],
        written := [Json.obj
          [("jsonrpc", Json.str "2.0"),
           ("id", Json.num 1),
           ("method", Json.str "init"),
           ("params", Json.arr [Json.str "resolve", Json.str "read"]),
           ("stream", Json.bool false)]] }
  ∧ (spawnAdvertise startedClient).running = true := by
  exact ⟨rfl, rfl⟩

/-- C4 witness: a fresh, never-started client rejects a call synchronously. -/
theorem c4_not_running_witness :
    JsonRpcClient.fresh.running = false
  ∧ JsonRpcClient.fresh.call "chat" Json.null true (some 3)
      = { JsonRpcClient.fresh with
          events := [Event.invoke 3 notRunningError Json.null] } := by
  refine ⟨rfl, ?_⟩
  exact (c4_not_running JsonRpcClient.fresh "chat" Json.null true 3 rfl).1

/-- C7: after a response matching a one-shot call's id is dispatched, the
registry entry for that id is gone, and delivering any second response with
the same id invokes no callback and changes no state at all. -/
theorem c7_one_shot_exactly_once (exp : Exports) (beh : Nat → Bool) (c : JsonRpcClient)
    (msg : Json) (rid : Json) (cb : Nat)
    (hresp : Json.isResponse msg = true)
    (hid : msg.getD "id" = rid)
    (hcb : alistLookup c.callbacks rid = some cb)
    (hit : alistLookup c.iters rid = none) :
    alistLookup (processLine exp beh c (InLine.parsed msg)).callbacks rid = none
  ∧ (processLine exp beh c (InLine.parsed msg)).iters = c.iters
  ∧ ∀ msg2 : Json, Json.isResponse msg2 = true → msg2.getD "id" = rid →
      processLine exp beh (processLine exp beh c (InLine.parsed msg)) (InLine.parsed msg2)
        = processLine exp beh c (InLine.parsed msg) := by
  have hpl : processLine exp beh c (InLine.parsed msg)
      = { c with callbacks := alistRemove c.callbacks rid,
                 events := c.events
                   ++ [Event.invoke cb (msg.getD "error") (msg.getD "result")] } := by
    simp only [processLine, handleParsed, hresp, if_true, handleResponse, hid, hcb, afterTry_eq]
  refine ⟨?_, ?_, ?_⟩
  · rw [hpl]
    exact alistLookup_remove_self c.callbacks rid
  · rw [hpl]
  · intro msg2 hresp2 hid2
    rw [hpl]
    simp only [processLine, handleParsed, hresp2, if_true, handleResponse, hid2,
      alistLookup_remove_self, hit, afterTry_eq]
    rw [alistRemove_of_lookup_none _ _ (alistLookup_remove_self c.callbacks rid)]

/-- C7 witness: a concrete client with one pending one-shot call; a matching
response resolves it and a re-delivered response is a no-op. -/
theorem c7_one_shot_exactly_once_witness :
    (let c : JsonRpcClient := startedClient.call "doit" Json.null false (some 7)
     let msg : Json := Json.obj [("id", Json.num 1), ("result", Json.str "ok")]
     alistLookup (processLine [] (fun _ => false) c (InLine.parsed msg)).callbacks (Json.num 1) = none
     ∧ processLine [] (fun _ => false)
         (processLine [] (fun _ => false) c (InLine.parsed msg)) (InLine.parsed msg)
         = processLine [] (fun _ => false) c (InLine.parsed msg)) := by
  have h := c7_one_shot_exactly_once [] (fun _ => false)
    (startedClient.call "doit" Json.null false (some 7))
    (Json.obj [("id", Json.num 1), ("result", Json.str "ok")])
    (Json.num 1) 7 rfl rfl rfl rfl
  exact ⟨h.1, h.2.2 _ rfl rfl⟩

/-- C8: a blank line, an undecodable line, or a decoded message that matches
neither the response shape nor the inbound-call guard is discarded without
any state change (no callback invocation, no write), and inserting such a
line anywhere in the input stream does not affect the processing of the
other lines. -/
theorem c8_malformed_resilience (exp : Exports) (beh : Nat → Bool) (bad : InLine)
    (hbad : bad = InLine.blank ∨ bad = InLine.malformed ∨
      ∃ m, bad = InLine.parsed m ∧ Json.isResponse m = false
        ∧ (m.isDict && Json.truthy (m.getD "method")) = false) :
    (∀ c : JsonRpcClient, processLine exp beh c bad = c)
  ∧ ∀ (c : JsonRpcClient) (xs ys : List InLine),
      (xs ++ bad :: ys).foldl (processLine exp beh) c
        = (xs ++ ys).foldl (processLine exp beh) c := by
  have hskip : ∀ c : JsonRpcClient, processLine exp beh c bad = c := by
    intro c
    rcases hbad with h | h | ⟨m, hm, hr, hmeth⟩
    · rw [h]
      rfl
    · rw [h]
      rfl
    · rw [hm]
      simp only [processLine, handleParsed, hr, Bool.false_eq_true, if_false, hmeth]
  refine ⟨hskip, ?_⟩
  intro c xs ys
  rw [List.foldl_append, List.foldl_cons, hskip, List.foldl_append]

/-- C8 witness: an undecodable line between two valid responses leaves the
run identical to the run without it. -/
theorem c8_malformed_resilience_witness :
    processLine [] (fun _ => false) startedClient InLine.malformed = startedClient
  ∧ ([InLine.parsed (Json.obj [("id", Json.num 1), ("result", Json.null)]),
      InLine.malformed,
      InLine.parsed (Json.obj [("id", Json.num 2), ("result", Json.null)])].foldl
        (processLine [] (fun _ => false)) startedClient
      = [InLine.parsed (Json.obj [("id", Json.num 1), ("result", Json.null)]),
         InLine.parsed (Json.obj [("id", Json.num 2), ("result", Json.null)])].foldl
          (processLine [] (fun _ => false)) startedClient) := by
  have h := c8_malformed_resilience [] (fun _ => false) InLine.malformed
    (Or.inr (Or.inl rfl))
  exact ⟨h.1 startedClient,
         h.2 startedClient
           [InLine.parsed (Json.obj [("id", Json.num 1), ("result", Json.null)])]
           [InLine.parsed (Json.obj [("id", Json.num 2), ("result", Json.null)])]⟩

/-- C9 counterexample: the decoded object `{"method": null, "id": 5}` does
not match the response shape and its `method` key is present, so the claim
classifies it as an inbound call — with an id and no matching export it
would have to draw a "Method not found" error reply.  The code instead
requires a truthy `method` value (`msg.get("method")` in boolean position)
and silently discards this message: the state is unchanged and nothing is
written. -/
theorem c9_falsy_method_dropped :
    Json.hasKey (Json.obj [("method", Json.null), ("id", Json.num 5)]) "method" = true
  ∧ Json.isResponse (Json.obj [("method", Json.null), ("id", Json.num 5)]) = false
  ∧ processLine [] (fun _ => false) startedClient
      (InLine.parsed (Json.obj [("method", Json.null), ("id", Json.num 5)])) = startedClient
  ∧ (processLine [] (fun _ => false) startedClient
      (InLine.parsed (Json.obj [("method", Json.null), ("id", Json.num 5)]))).written = [] := by
  exact ⟨rfl, rfl, rfl, rfl⟩

/-- C9 amended: a decoded object that does not match the response shape is
classified as an inbound call exactly when its `method` value is truthy; a
truthy string method is looked up in the export table and an unknown method
accompanied by a non-null id draws a "Method not found: <method>" error
reply, while an object whose `method` key is absent or holds a falsy value
(null, "", 0, false, empty containers) is silently discarded. -/
theorem c9_amended_truthy_method (exp : Exports) (beh : Nat → Bool) (c : JsonRpcClient)
    (msg : Json) (hnr : Json.isResponse msg = false) (hdict : msg.isDict = true) :
    (Json.truthy (msg.getD "method") = false →
      processLine exp beh c (InLine.parsed msg) = c)
  ∧ (∀ s : String, msg.getD "method" = Json.str s → s.isEmpty = false →
      exp.lookup s = none →
      Json.beq (msg.getD "id") Json.null = false →
      c.running = true →
      processLine exp beh c (InLine.parsed msg)
        = { c with written := c.written
              ++ [mkErrorReply (msg.getD "id") ("Method not found: " ++ s)] }) := by
  constructor
  · intro hfalsy
    simp only [processLine, handleParsed, hnr, Bool.false_eq_true, if_false, hdict, hfalsy,
      Bool.and_false]
  · intro s hm hs hlook hid hrun
    simp only [processLine, handleParsed, hnr, Bool.false_eq_true, if_false, hdict, hm,
      Json.truthy, hs, Bool.not_false, Bool.and_true, if_true, handleInbound, exportLookup,
      hlook, hid, Json.display, JsonRpcClient.writeJson, hrun]

/-- C9 amended witness: a known-shape inbound call with an unregistered
method and id 9 draws the Method-not-found reply; a falsy-method object is
dropped. -/
theorem c9_amended_truthy_method_witness :
    (processLine [] (fun _ => false) startedClient
        (InLine.parsed (Json.obj [("method", Json.str ""), ("id", Json.num 5)]))
      = startedClient)
  ∧ (processLine [] (fun _ => false) startedClient
        (InLine.parsed (Json.obj [("method", Json.str "nope"), ("id", Json.num 9)]))
      = { startedClient with
          written := [mkErrorReply (Json.num 9) "Method not found: nope"] }) := by
  constructor
  · exact (c9_amended_truthy_method [] (fun _ => false) startedClient
      (Json.obj [("method", Json.str ""), ("id", Json.num 5)]) rfl rfl).1 rfl
  · exact (c9_amended_truthy_method [] (fun _ => false) startedClient
      (Json.obj [("method", Json.str "nope"), ("id", Json.num 9)]) rfl rfl).2
      "nope" rfl rfl rfl rfl rfl

/-- C10: a raising callback is swallowed by the reader: the whole reader run
(line loop plus end-of-stream epilogue) reaches the same state whatever the
set of raising callbacks; a streaming entry whose terminal `done = true`
delivery raised is still removed from its registry; and the exit cascade
clears both registries even when every callback raises. -/
theorem c10_raising_callback_swallowed (exp : Exports) (beh beh2 : Nat → Bool) :
    (∀ (c : JsonRpcClient) (lines : List InLine),
        readStdout exp beh c lines = readStdout exp beh2 c lines)
  ∧ (∀ (c : JsonRpcClient) (rid : Json) (g : Nat) (msg : Json),
        alistLookup c.callbacks rid = none →
        alistLookup c.iters rid = some g →
        Json.isResponse msg = true →
        msg.getD "id" = rid →
        Json.truthy (msg.getD "done") = true →
        alistLookup (processLine exp beh c (InLine.parsed msg)).iters rid = none)
  ∧ (∀ c : JsonRpcClient, c.closing = false →
        (onEof beh c).callbacks = [] ∧ (onEof beh c).iters = []) := by
  refine ⟨?_, ?_, ?_⟩
  · intro c lines
    unfold readStdout
    rw [foldl_processLine_beh exp beh beh2, onEof_beh beh beh2]
  · intro c rid g msg hcb hit hresp hid hdone
    simp only [processLine, handleParsed, hresp, if_true, handleResponse, hid, hcb, hit,
      hdone, afterTry_eq, if_true]
    exact alistLookup_remove_self c.iters rid
  · intro c h
    rw [onEof_not_closing beh c h]
    exact ⟨rfl, rfl⟩

/-- C10 witness: with a behaviour under which every callback raises, a
concrete run is identical to the non-raising run, a raising terminal
streaming delivery still drops its entry, and the cascade clears a concrete
client holding one entry of each kind. -/
theorem c10_raising_callback_swallowed_witness :
    (readStdout [] (fun _ => true)
        (startedClient.call "doit" Json.null false (some 7))
        [InLine.parsed (Json.obj [("id", Json.num 1), ("result", Json.null)])]
      = readStdout [] (fun _ => false)
        (startedClient.call "doit" Json.null false (some 7))
        [InLine.parsed (Json.obj [("id", Json.num 1), ("result", Json.null)])])
  ∧ (alistLookup
      (processLine [] (fun _ => true)
        (startedClient.call "chat" Json.null true (some 8))
        (InLine.parsed (Json.obj [("id", Json.num 1), ("done", Json.bool true)]))).iters
      (Json.num 1) = none)
  ∧ ((onEof (fun _ => true)
        { nextId := 3, callbacks := [(Json.num 1, 10)], iters := [(Json.num 2, 20)],
          closing := false, errbuf := [], running := true, written := [],
          events := [] }).callbacks = []
      ∧ (onEof (fun _ => true)
        { nextId := 3, callbacks := [(Json.num 1, 10)], iters := [(Json.num 2, 20)],
          closing := false, errbuf := [], running := true, written := [],
          events := [] }).iters = []) := by
  have h := c10_raising_callback_swallowed [] (fun _ => true) (fun _ => false)
  refine ⟨h.1 _ _, ?_, ?_⟩
  · exact h.2.1 (startedClient.call "chat" Json.null true (some 8)) (Json.num 1) 8
      (Json.obj [("id", Json.num 1), ("done", Json.bool true)]) rfl rfl rfl rfl rfl
  · exact h.2.2 _ rfl

/-- C5: inbound dispatch.  For a decoded inbound call (non-response dict with
a truthy string method): a registered handler is invoked with the decoded
params and, when the call carries a non-null id, a result reply with that id
is written back; an unregistered method with an id draws an error reply
"Method not found: <method>"; a raising handler with an id draws an error
reply carrying the raised text; and a call without an id produces no reply
whatever the outcome. -/
theorem c5_inbound_dispatch (exp : Exports) (beh : Nat → Bool) (c : JsonRpcClient)
    (msg : Json) (s : String)
    (hnr : Json.isResponse msg = false)
    (hdict : msg.isDict = true)
    (hm : msg.getD "method" = Json.str s)
    (hs : s.isEmpty = false)
    (hrun : c.running = true) :
    (∀ (f : Handler) (r : Json), exp.lookup s = some f →
        f (msg.getD "params") = Except.ok r →
        Json.beq (msg.getD "id") Json.null = false →
        processLine exp beh c (InLine.parsed msg)
          = { c with
              events := c.events ++ [Event.handlerInvoked (Json.str s) (msg.getD "params")],
              written := c.written ++ [mkResultReply (msg.getD "id") r] })
  ∧ (exp.lookup s = none →
        Json.beq (msg.getD "id") Json.null = false →
        processLine exp beh c (InLine.parsed msg)
          = { c with
              written := c.written
                ++ [mkErrorReply (msg.getD "id") ("Method not found: " ++ s)] })
  ∧ (∀ (f : Handler) (e : String), exp.lookup s = some f →
        f (msg.getD "params") = Except.error e →
        Json.beq (msg.getD "id") Json.null = false →
        processLine exp beh c (InLine.parsed msg)
          = { c with
              events := c.events ++ [Event.handlerInvoked (Json.str s) (msg.getD "params")],
              written := c.written ++ [mkErrorReply (msg.getD "id") e] })
  ∧ (Json.beq (msg.getD "id") Json.null = true →
        (processLine exp beh c (InLine.parsed msg)).written = c.written) := by
  have hguard : (msg.isDict && Json.truthy (Json.str s)) = true := by
    rw [hdict]
    simp [Json.truthy, hs]
  refine ⟨?_, ?_, ?_, ?_⟩
  · intro f r hlook hf hid
    simp only [processLine, handleParsed, hnr, Bool.false_eq_true, if_false, hguard, if_true,
      handleInbound, hm, exportLookup, hlook, hf, hid, JsonRpcClient.writeJson, hrun]
  · intro hlook hid
    simp only [processLine, handleParsed, hnr, Bool.false_eq_true, if_false, hguard, if_true,
      handleInbound, hm, exportLookup, hlook, hid, Json.display, JsonRpcClient.writeJson, hrun]
  · intro f e hlook hf hid
    simp only [processLine, handleParsed, hnr, Bool.false_eq_true, if_false, hguard, if_true,
      handleInbound, hm, exportLookup, hlook, hf, hid, JsonRpcClient.writeJson, hrun]
  · intro hid
    simp only [processLine, handleParsed, hnr, Bool.false_eq_true, if_false, hguard, if_true,
      handleInbound, hm, exportLookup, hid, if_true]
    cases List.lookup s exp with
    | none => rfl
    | some f => rfl

/-- C5 witness: a two-method export table exercising all four cases: a
normal return with id, an unknown method with id, a raising handler with id,
and a notification (no id) producing no reply. -/
theorem c5_inbound_dispatch_witness :
    (processLine [("echo", fun p => Except.ok p), ("boom", fun _ => Except.error "boom failed")]
        (fun _ => false) startedClient
        (InLine.parsed (Json.obj [("method", Json.str "echo"), ("id", Json.num 4),
          ("params", Json.num 3)]))
      = { startedClient with
          events := [Event.handlerInvoked (Json.str "echo") (Json.num 3)],
          written := [mkResultReply (Json.num 4) (Json.num 3)] })
  ∧ (processLine [("echo", fun p => Except.ok p), ("boom", fun _ => Except.error "boom failed")]
        (fun _ => false) startedClient
        (InLine.parsed (Json.obj [("method", Json.str "nope"), ("id", Json.num 5)]))
      = { startedClient with
          written := [mkErrorReply (Json.num 5) "Method not found: nope"] })
  ∧ (processLine [("echo", fun p => Except.ok p), ("boom", fun _ => Except.error "boom failed")]
        (fun _ => false) startedClient
        (InLine.parsed (Json.obj [("method", Json.str "boom"), ("id", Json.num 6)]))
      = { startedClient with
          events := [Event.handlerInvoked (Json.str "boom") Json.null],
          written := [mkErrorReply (Json.num 6) "boom failed"] })
  ∧ ((processLine [("echo", fun p => Except.ok p), ("boom", fun _ => Except.error "boom failed")]
        (fun _ => false) startedClient
        (InLine.parsed (Json.obj [("method", Json.str "boom")]))).written = []) := by
  refine ⟨?_, ?_, ?_, ?_⟩
  · exact (c5_inbound_dispatch _ (fun _ => false) startedClient
      (Json.obj [("method", Json.str "echo"), ("id", Json.num 4), ("params", Json.num 3)])
      "echo" rfl rfl rfl rfl rfl).1 (fun p => Except.ok p) (Json.num 3) rfl rfl rfl
  · exact (c5_inbound_dispatch _ (fun _ => false) startedClient
      (Json.obj [("method", Json.str "nope"), ("id", Json.num 5)])
      "nope" rfl rfl rfl rfl rfl).2.1 rfl rfl
  · exact (c5_inbound_dispatch _ (fun _ => false) startedClient
      (Json.obj [("method", Json.str "boom"), ("id", Json.num 6)])
      "boom" rfl rfl rfl rfl rfl).2.2.1 (fun _ => Except.error "boom failed") "boom failed"
      rfl rfl rfl
  · exact (c5_inbound_dispatch _ (fun _ => false) startedClient
      (Json.obj [("method", Json.str "boom")])
      "boom" rfl rfl rfl rfl rfl).2.2.2 rfl

lemma assignedIds_range (exp : Exports) (beh : Nat → Bool) :
    ∀ (tr : List Action) (c : JsonRpcClient), c.running = true →
      assignedIds exp beh c tr = List.range' c.nextId (countCalls tr) := by
  intro tr
  induction tr with
  | nil =>
    intro c h
    rfl
  | cons a tr ih =>
    intro c h
    cases a with
    | call m p s cb =>
      have hf := call_fields c m p s cb h
      simp only [assignedIds, h, if_true, countCalls]
      rw [ih _ hf.1, hf.2]
      rfl
    | line l =>
      have hf := processLine_fields exp beh c l
      simp only [assignedIds, countCalls]
      rw [ih _ (hf.1.trans h), hf.2]

/-- C6: along any interleaving of outbound calls and reader-loop steps on a
freshly started connection, the assigned correlation ids are exactly
`1, 2, ..., N` for the `N` calls issued — pairwise distinct, strictly
increasing and starting at 1 — and since responses processed in between
(resolving earlier calls) never touch the id counter, an id is never
reassigned for the lifetime of the connection. -/
theorem c6_id_uniqueness (exp : Exports) (beh : Nat → Bool) (tr : List Action) :
    assignedIds exp beh startedClient tr = List.range' 1 (countCalls tr)
  ∧ List.Pairwise (fun a b : Nat => a < b) (assignedIds exp beh startedClient tr) := by
  have h := assignedIds_range exp beh tr startedClient rfl
  refine ⟨h, ?_⟩
  rw [h]
  exact List.pairwise_lt_range' 1 (countCalls tr)

end TuneRpc
